import Mathlib

/-!
# telemd daemon: instrument selection, ticker construction, shutdown

A shallow embedding of `internal/telemd/daemon.go`.

* Go maps (`map[string]V`) are association lists with pairwise distinct keys;
  `delete`, lookup and assignment are the three operations the daemon uses.
  Where the Go code ranges over a map, the embedded function takes the
  iteration order as an argument and the theorems hold for every order that
  is a permutation of the map.
* Go slices (`[]string`) keep the distinction between the nil slice and a
  non-nil slice, because the source tests `!= nil` explicitly.
* Calls that leave the daemon (the logger, channel sends, ticker methods,
  closing the telemetry channel) are recorded, in program order, in a list of
  `Effect`s returned next to the new daemon value. A channel send can block;
  `Stop` takes as an argument whether its send completes.
* `Daemon.Run` starts goroutines; it is embedded as a small-step transition
  system in which a schedule picks the goroutine that moves next.
-/

namespace Telemd

/-! ## Go slices and maps -/

/-- A Go slice value: `nil` is the nil slice, `mk l` a non-nil slice holding `l`. -/
inductive Slice (α : Type) where
  | nil : Slice α
  | mk (elems : List α) : Slice α
  deriving DecidableEq

/-- Go `s != nil`. -/
def Slice.isNotNil {α : Type} : Slice α → Bool
  | .nil => false
  | .mk _ => true

/-- Go `len(s)`; the nil slice has length zero. -/
def Slice.len {α : Type} : Slice α → Nat
  | .nil => 0
  | .mk l => l.length

/-- The elements visited by `for _, x := range s`, in order. -/
def Slice.elems {α : Type} : Slice α → List α
  | .nil => []
  | .mk l => l

/-- A Go `map[string]V`, as an association list. -/
abbrev GoMap (V : Type) := List (String × V)

/-- Go `make(map[string]V)`: the empty map. -/
def GoMap.make {V : Type} : GoMap V := []

/-- Go `v, ok := m[k]`: `some v` when `ok`, `none` otherwise. -/
def GoMap.get {V : Type} : GoMap V → String → Option V
  | [], _ => none
  | (k', v) :: rest, k => if k' = k then some v else GoMap.get rest k

/-- Go `delete(m, k)`; a no-op when `k` is not a key of `m`. -/
def GoMap.delete {V : Type} (m : GoMap V) (k : String) : GoMap V :=
  m.filter (fun p => decide (p.1 ≠ k))

/-- Go `m[k] = v`: overwrite the entry of `k` when there is one, add it otherwise. -/
def GoMap.set {V : Type} : GoMap V → String → V → GoMap V
  | [], k, v => [(k, v)]
  | (k', v') :: rest, k, v =>
    if k' = k then (k, v) :: rest else (k', v') :: GoMap.set rest k v

/-- The keys of a map. -/
def GoMap.keys {V : Type} (m : GoMap V) : List String := m.map Prod.fst

/-- The values of a map. -/
def GoMap.values {V : Type} (m : GoMap V) : List V := m.map Prod.snd

/-! ## Configuration, collaborators, effects -/

/-- The type `time.Duration`: a count of nanoseconds. -/
abbrev Duration := Int

/-- The constant `time.Second`. -/
def Second : Duration := 1000000000

/-- The `Net`, `Disk` and `Gpu` sections of the configuration: a device list. -/
structure DeviceConfig where
  Devices : Slice String
  deriving DecidableEq

/-- The part of `Config` read through `cfg.Instruments`. -/
structure InstrumentsConfig where
  Net : DeviceConfig
  Disk : DeviceConfig
  Gpu : DeviceConfig
  Enable : Slice String
  Disable : Slice String
  Periods : GoMap Duration
  deriving DecidableEq

/-- The daemon configuration `Config`, restricted to the fields the daemon reads. -/
structure Config where
  Instruments : InstrumentsConfig
  deriving DecidableEq

/-- The `InstrumentFactory` interface: one constructor method per instrument
kind; `I` is the `Instrument` interface type. -/
structure InstrumentFactory (I : Type) where
  NewCpuUtilInstrument : I
  NewCpuFrequencyInstrument : I
  NewLoadInstrument : I
  NewRamInstrument : I
  NewProcsInstrument : I
  NewNetworkDataRateInstrument : Slice String → I
  NewDiskDataRateInstrument : Slice String → I
  NewGpuFrequencyInstrument : Slice String → I
  NewGpuUtilInstrument : Slice String → I
  NewCgroupCpuInstrument : I
  NewCgroupBlkioInstrument : I
  NewCgroupNetworkInstrument : I

/-- One operand of a `log.Println` call. -/
inductive LogArg where
  | str (s : String) : LogArg
  | strs (s : Slice String) : LogArg
  deriving DecidableEq

/-- A call that leaves the daemon; `C` is `telem.TelemetryChannel`, `T` is
`TelemetryTicker`. -/
inductive Effect (C T : Type) where
  /-- The call `log.Println(args...)`. -/
  | println (args : List LogArg) : Effect C T
  /-- The send `daemon.cmds.stop <- v`. -/
  | sendStop (v : Bool) : Effect C T
  /-- The call `ticker.Stop()`. -/
  | tickerStop (t : T) : Effect C T
  /-- The call `daemon.telemetry.Close()`. -/
  | telemetryClose (c : C) : Effect C T
  deriving DecidableEq

/-- The `Daemon` struct; `I`, `C`, `T`, `Q` are the types `Instrument`,
`telem.TelemetryChannel`, `TelemetryTicker` and `*commandChannel`. -/
structure Daemon (I C T Q : Type) where
  cfg : Config
  cmds : Q
  isPausedByCommand : Bool
  telemetry : C
  instruments : GoMap I
  tickers : GoMap T

/-! ## `initInstruments` -/

/-- The map literal `instruments` built at the top of `initInstruments`. -/
def initInstruments.instruments {I : Type} (factory : InstrumentFactory I) (cfg : Config) :
    GoMap I :=
  [ ("cpu", factory.NewCpuUtilInstrument),
    ("freq", factory.NewCpuFrequencyInstrument),
    ("load", factory.NewLoadInstrument),
    ("ram", factory.NewRamInstrument),
    ("procs", factory.NewProcsInstrument),
    ("net", factory.NewNetworkDataRateInstrument cfg.Instruments.Net.Devices),
    ("disk", factory.NewDiskDataRateInstrument cfg.Instruments.Disk.Devices),
    ("gpu_freq", factory.NewGpuFrequencyInstrument cfg.Instruments.Gpu.Devices),
    ("gpu_util", factory.NewGpuUtilInstrument cfg.Instruments.Gpu.Devices),
    ("cgrp_cpu", factory.NewCgroupCpuInstrument),
    ("cgrp_blkio", factory.NewCgroupBlkioInstrument),
    ("cgrp_net", factory.NewCgroupNetworkInstrument) ]

/-- The body of the enable loop: copy `key` when it is a key of `instruments`. -/
def initInstruments.enableStep {I : Type} (instruments : GoMap I) (acc : GoMap I)
    (key : String) : GoMap I :=
  match GoMap.get instruments key with
  | some value => GoMap.set acc key value
  | none => acc

/-- Method `Daemon.initInstruments`: resolve the enable and disable lists against the
full instrument map and store the result in `daemon.instruments`. -/
def initInstruments {I C T Q : Type} (factory : InstrumentFactory I)
    (daemon : Daemon I C T Q) : Daemon I C T Q × List (Effect C T) :=
  let cfg := daemon.cfg
  let instruments := initInstruments.instruments factory cfg
  if cfg.Instruments.Disable.isNotNil && decide (cfg.Instruments.Disable.len > 0) then
    ({ daemon with
        instruments := cfg.Instruments.Disable.elems.foldl GoMap.delete instruments },
      [Effect.println [.str "disabling instruments", .strs cfg.Instruments.Disable]])
  else if cfg.Instruments.Enable.isNotNil && decide (cfg.Instruments.Enable.len > 0) then
    ({ daemon with
        instruments := cfg.Instruments.Enable.elems.foldl
          (initInstruments.enableStep instruments) GoMap.make },
      [Effect.println [.str "enabling instruments", .strs cfg.Instruments.Enable]])
  else
    ({ daemon with instruments := instruments }, [])

/-! ## `initTickers`, `NewDaemon`, `Stop` -/

/-- The body of the loop of `initTickers` for the map entry `entry`. -/
def initTickers.body {I C T Q : Type} (NewTelemetryTicker : I → C → Duration → T)
    (st : Daemon I C T Q × List (Effect C T)) (entry : String × I) :
    Daemon I C T Q × List (Effect C T) :=
  let daemon := st.1
  let k := entry.1
  let instrument := entry.2
  match GoMap.get daemon.cfg.Instruments.Periods k with
  | some period =>
    ({ daemon with
        tickers := GoMap.set daemon.tickers k
          (NewTelemetryTicker instrument daemon.telemetry period) },
      st.2)
  | none =>
    ({ daemon with
        tickers := GoMap.set daemon.tickers k
          (NewTelemetryTicker instrument daemon.telemetry (1 * Second)) },
      st.2 ++ [Effect.println
        [.str "warning: no period assigned for instrument", .str k, .str "using 1"]])

/-- Method `Daemon.initTickers`. `order` is the order in which
`range daemon.instruments` visits the entries of the map. -/
def initTickers {I C T Q : Type} (NewTelemetryTicker : I → C → Duration → T)
    (order : List (String × I)) (daemon : Daemon I C T Q) :
    Daemon I C T Q × List (Effect C T) :=
  order.foldl (initTickers.body NewTelemetryTicker) (daemon, [])

/-- Constructor `NewDaemon`. The collaborators `telem.NewTelemetryChannel()`,
`newCommandChannel()`, `NewInstrumentFactory(runtime.GOARCH)` and
`NewTelemetryTicker` are arguments, and `rangeOrder` is the order in which the
runtime ranges over the instrument map. -/
def NewDaemon {I C T Q : Type} (NewTelemetryChannel : C) (newCommandChannel : Q)
    (factory : InstrumentFactory I) (NewTelemetryTicker : I → C → Duration → T)
    (rangeOrder : GoMap I → List (String × I)) (cfg : Config) :
    Daemon I C T Q × List (Effect C T) :=
  let td : Daemon I C T Q :=
    { cfg := cfg
      telemetry := NewTelemetryChannel
      cmds := newCommandChannel
      tickers := GoMap.make
      isPausedByCommand := false
      instruments := GoMap.make }
  let r1 := initInstruments factory td
  let r2 := initTickers NewTelemetryTicker (rangeOrder r1.1.instruments) r1.1
  (r2.1, r1.2 ++ r2.2)

/-- The body of the loop of `Stop` for the map entry `entry`. -/
def Stop.body {C T : Type} (effects : List (Effect C T)) (entry : String × T) :
    List (Effect C T) :=
  effects ++ [Effect.println [.str ("stopping ticker " ++ entry.1)], Effect.tickerStop entry.2]

/-- What a call of `Daemon.Stop` leaves behind: the daemon, the calls it made,
in order, and whether the call returned to its caller. -/
structure StopResult (I C T Q : Type) where
  daemon : Daemon I C T Q
  effects : List (Effect C T)
  returned : Bool

/-- Method `Daemon.Stop`. Its first statement, `daemon.cmds.stop <- true`, is a
channel send: it completes only when the value is taken (the command loop
receives it, or the channel has room for it), and blocks otherwise.
`sendCompletes` says which of the two happens for this call. When the send
completes, it is recorded as `Effect.sendStop true` and the loop over the
tickers runs; when it does not, the call stays blocked at the send, no call
has been made, and the loop is never reached. `order` is the order in which
`range daemon.tickers` visits the entries of the map. -/
def Stop {I C T Q : Type} (sendCompletes : Bool) (order : List (String × T))
    (daemon : Daemon I C T Q) : StopResult I C T Q :=
  if sendCompletes then
    { daemon := daemon
      effects := order.foldl Stop.body [Effect.sendStop true]
      returned := true }
  else
    { daemon := daemon
      effects := []
      returned := false }

/-- The ticker an effect stops, when the effect is a `ticker.Stop()` call. -/
def Effect.stoppedTicker {C T : Type} : Effect C T → Option T
  | .tickerStop t => some t
  | _ => none

/-- Whether an effect is a send on the stop signal of the command channel. -/
def Effect.isSendStop {C T : Type} : Effect C T → Bool
  | .sendStop _ => true
  | _ => false

/-- Whether an effect closes the telemetry channel. -/
def Effect.isTelemetryClose {C T : Type} : Effect C T → Bool
  | .telemetryClose _ => true
  | _ => false

/-- Whether an effect is a `log.Println` call. -/
def Effect.isPrintln {C T : Type} : Effect C T → Bool
  | .println _ => true
  | _ => false

/-- The log line `initTickers` prints for a key without a configured period. -/
def noPeriodWarning {C T : Type} (k : String) : Effect C T :=
  Effect.println [.str "warning: no period assigned for instrument", .str k, .str "using 1"]

/-- The period `initTickers` resolves for key `k`. -/
def resolvedPeriod (cfg : Config) (k : String) : Duration :=
  match GoMap.get cfg.Instruments.Periods k with
  | some period => period
  | none => 1 * Second

/-- The slice obtained by adding `k` to `s` at position `i` (at the end when
`i` is past the end); adding to the nil slice gives a one-element slice. -/
def Slice.add (s : Slice String) (i : Nat) (k : String) : Slice String :=
  .mk (s.elems.take i ++ k :: s.elems.drop i)

/-- The daemon `daemon` with its disable-list replaced. -/
def Daemon.withDisable {I C T Q : Type} (daemon : Daemon I C T Q) (l : Slice String) :
    Daemon I C T Q :=
  { daemon with cfg := { Instruments := { daemon.cfg.Instruments with Disable := l } } }

/-- The daemon `daemon` with its enable-list replaced. -/
def Daemon.withEnable {I C T Q : Type} (daemon : Daemon I C T Q) (l : Slice String) :
    Daemon I C T Q :=
  { daemon with cfg := { Instruments := { daemon.cfg.Instruments with Enable := l } } }

/-! ## `Run` and `startTickers`: goroutines

`Run` starts two goroutines and `startTickers` one more per ticker. A state of
the transition system holds the position of every goroutine, the two wait
group counters and the trace of calls made on the telemetry channel; a
schedule is the list of goroutines that move, one statement at a time.
`sync.WaitGroup` is a counter: `Add(n)` adds `n`, `Done()` subtracts one (and
panics below zero), `Wait()` can only return while the counter is zero. -/

/-- The statement the goroutine that called `Run` is at. -/
inductive RunPc where
  /-- At `wg.Add(2)`. -/
  | atAdd : RunPc
  /-- At `go func() { daemon.runCommandLoop(); wg.Done() }()`. -/
  | atGoCommandLoop : RunPc
  /-- At `go func() { daemon.startTickers().Wait(); wg.Done() }()`. -/
  | atGoStartTickers : RunPc
  /-- At `wg.Wait()`. -/
  | atWait : RunPc
  /-- At `time.Sleep(1 * time.Second)`. -/
  | atSleep : RunPc
  /-- At `log.Println("closing telemetry channel")`. -/
  | atPrintln : RunPc
  /-- At `daemon.telemetry.Close()`. -/
  | atClose : RunPc
  /-- After `Run` has returned to its caller. -/
  | returned : RunPc
  deriving DecidableEq

/-- The statement the command loop goroutine of `Run` is at. -/
inductive CommandPc where
  /-- Before `Run` has started the goroutine. -/
  | notStarted : CommandPc
  /-- Inside `daemon.runCommandLoop()`. -/
  | inLoop : CommandPc
  /-- At `wg.Done()`. -/
  | atDone : CommandPc
  /-- After the goroutine has finished. -/
  | exited : CommandPc
  deriving DecidableEq

/-- The statement the ticker-starting goroutine of `Run` is at. -/
inductive StarterPc where
  /-- Before `Run` has started the goroutine. -/
  | notStarted : StarterPc
  /-- In the loop of `startTickers`, about to visit ticker number `i`. -/
  | atRange (i : Nat) : StarterPc
  /-- At `.Wait()` on the wait group `startTickers` returned. -/
  | atWait : StarterPc
  /-- At `wg.Done()`. -/
  | atDone : StarterPc
  /-- After the goroutine has finished. -/
  | exited : StarterPc
  deriving DecidableEq

/-- The statement the goroutine `startTickers` starts for one ticker is at. -/
inductive TickerPc where
  /-- Before `startTickers` has started the goroutine. -/
  | notStarted : TickerPc
  /-- At `wg.Add(1)`. -/
  | atAdd : TickerPc
  /-- At the call `t.Run()`. -/
  | atRun : TickerPc
  /-- Inside `t.Run()`. -/
  | running : TickerPc
  /-- At `wg.Done()`. -/
  | atDone : TickerPc
  /-- After the goroutine has finished. -/
  | exited : TickerPc
  deriving DecidableEq

/-- The statement a goroutine that called `daemon.Stop()` is at. -/
inductive StopPc where
  /-- At `daemon.cmds.stop <- true`. -/
  | atSend : StopPc
  /-- In the loop over the tickers, about to visit ticker number `j`. -/
  | atRange (j : Nat) : StopPc
  /-- After `Stop` has returned. -/
  | returned : StopPc
  deriving DecidableEq

/-- One ticker and its goroutine: the position of the goroutine, and whether
`Stop()` has been called on the ticker. -/
structure TickerState where
  pc : TickerPc
  stopped : Bool
  deriving DecidableEq

/-- A call observed while `Run` executes. -/
inductive RunEvent where
  /-- Ticker number `i` pushes a Sample onto the telemetry channel. -/
  | push (i : Nat) : RunEvent
  /-- The call `daemon.telemetry.Close()`. -/
  | close : RunEvent
  /-- The call `log.Println(s)`. -/
  | println (s : String) : RunEvent
  /-- The call `ticker.Stop()` on ticker number `j`. -/
  | tickerStop (j : Nat) : RunEvent
  deriving DecidableEq

/-- The state of a daemon on which `Run` and `Stop` have been called. -/
structure RunState where
  run : RunPc
  command : CommandPc
  starter : StarterPc
  tickers : List TickerState
  stop : StopPc
  /-- The counter of the wait group `wg` of `Run`. -/
  runWg : Nat
  /-- The counter of the wait group `wg` of `startTickers`. -/
  tickersWg : Nat
  /-- Whether the command loop has received the stop signal. -/
  stopSignal : Bool
  trace : List RunEvent
  deriving DecidableEq

/-- The goroutines of the system. -/
inductive Goroutine where
  | run : Goroutine
  | commandLoop : Goroutine
  | startTickers : Goroutine
  | ticker (i : Nat) : Goroutine
  | stop : Goroutine
  deriving DecidableEq

/-- Modelled from the spec: `runCommandLoop` is not in the source file; it is
a "single logical loop reading from the Command Channel until a stop directive
is received on a distinct control signal, then terminates". The loop can
return exactly when the stop signal has been received. -/
def runCommandLoop.canReturn (stopSignal : Bool) : Bool := stopSignal

/-- What a ticker inside `Run()` does next. -/
inductive TickerMove where
  | pushSample : TickerMove
  | returnFromRun : TickerMove
  deriving DecidableEq

/-- Modelled from the spec: `TelemetryTicker.Run` is not in the source file;
it "enters a loop that, on each period elapsing, invokes the bound
Instrument's sample operation and [...] pushes it onto the Telemetry Channel",
and `Stop` "signals the loop to exit". A ticker on which `Stop` has not been
called pushes a Sample; one on which it has been called returns from `Run`. -/
def TelemetryTicker.next (stopped : Bool) : TickerMove :=
  if stopped then .returnFromRun else .pushSample

/-- The state in which `Run` is about to execute its first statement on a
daemon with `n` tickers, and a caller of `Stop` is about to send. -/
def Run.init (n : Nat) : RunState :=
  { run := .atAdd
    command := .notStarted
    starter := .notStarted
    tickers := List.replicate n { pc := .notStarted, stopped := false }
    stop := .atSend
    runWg := 0
    tickersWg := 0
    stopSignal := false
    trace := [] }

/-- One statement of the goroutine that called `Run`. -/
def Run.stepRun (s : RunState) : Option RunState :=
  match s.run with
  | .atAdd => some { s with runWg := s.runWg + 2, run := .atGoCommandLoop }
  | .atGoCommandLoop => some { s with command := .inLoop, run := .atGoStartTickers }
  | .atGoStartTickers => some { s with starter := .atRange 0, run := .atWait }
  | .atWait => if s.runWg = 0 then some { s with run := .atSleep } else none
  | .atSleep => some { s with run := .atPrintln }
  | .atPrintln =>
    some { s with
      run := .atClose, trace := s.trace ++ [.println "closing telemetry channel"] }
  | .atClose => some { s with run := .returned, trace := s.trace ++ [.close] }
  | .returned => none

/-- One statement of the command loop goroutine of `Run`. -/
def Run.stepCommandLoop (s : RunState) : Option RunState :=
  match s.command with
  | .notStarted => none
  | .inLoop =>
    if runCommandLoop.canReturn s.stopSignal then some { s with command := .atDone } else none
  | .atDone =>
    if s.runWg = 0 then none else some { s with runWg := s.runWg - 1, command := .exited }
  | .exited => none

/-- One statement of the goroutine of `Run` that calls `startTickers` and waits
on the wait group it returns. Visiting ticker `i` in the loop of `startTickers`
is the `go` statement: the new goroutine stands at its `wg.Add(1)`. -/
def Run.stepStartTickers (s : RunState) : Option RunState :=
  match s.starter with
  | .notStarted => none
  | .atRange i =>
    match s.tickers[i]? with
    | some t =>
      some { s with
        tickers := s.tickers.set i { t with pc := .atAdd }, starter := .atRange (i + 1) }
    | none => some { s with starter := .atWait }
  | .atWait => if s.tickersWg = 0 then some { s with starter := .atDone } else none
  | .atDone =>
    if s.runWg = 0 then none else some { s with runWg := s.runWg - 1, starter := .exited }
  | .exited => none

/-- One statement of the goroutine `startTickers` started for ticker `i`. -/
def Run.stepTicker (s : RunState) (i : Nat) : Option RunState :=
  match s.tickers[i]? with
  | none => none
  | some t =>
    match t.pc with
    | .notStarted => none
    | .atAdd =>
      some { s with
        tickersWg := s.tickersWg + 1, tickers := s.tickers.set i { t with pc := .atRun } }
    | .atRun => some { s with tickers := s.tickers.set i { t with pc := .running } }
    | .running =>
      match TelemetryTicker.next t.stopped with
      | .pushSample => some { s with trace := s.trace ++ [.push i] }
      | .returnFromRun => some { s with tickers := s.tickers.set i { t with pc := .atDone } }
    | .atDone =>
      if s.tickersWg = 0 then none
      else some { s with
        tickersWg := s.tickersWg - 1, tickers := s.tickers.set i { t with pc := .exited } }
    | .exited => none

/-- One statement of a goroutine that called `daemon.Stop()`. The send on the
stop signal completes when the command loop is there to receive it. The log
line of the loop is recorded without the key of the ticker. -/
def Run.stepStop (s : RunState) : Option RunState :=
  match s.stop with
  | .atSend =>
    if s.command = .inLoop ∧ s.stopSignal = false then
      some { s with stopSignal := true, stop := .atRange 0 }
    else none
  | .atRange j =>
    match s.tickers[j]? with
    | some t =>
      some { s with
        tickers := s.tickers.set j { t with stopped := true }
        stop := .atRange (j + 1)
        trace := s.trace ++ [.println "stopping ticker", .tickerStop j] }
    | none => some { s with stop := .returned }
  | .returned => none

/-- One step of the system: goroutine `g` executes its next statement, or
`none` when it is blocked, has finished, or would panic. -/
def Run.step (s : RunState) : Goroutine → Option RunState
  | .run => Run.stepRun s
  | .commandLoop => Run.stepCommandLoop s
  | .startTickers => Run.stepStartTickers s
  | .ticker i => Run.stepTicker s i
  | .stop => Run.stepStop s

/-- Run the system along a schedule. -/
def Run.exec : RunState → List Goroutine → Option RunState
  | s, [] => some s
  | s, g :: rest =>
    match Run.step s g with
    | some s' => Run.exec s' rest
    | none => none

/-- Whether a trace has a push of a Sample after a `Close` of the channel. -/
def pushAfterClose : List RunEvent → Bool
  | [] => false
  | .close :: rest => rest.any (fun e => match e with | .push _ => true | _ => false)
      || pushAfterClose rest
  | _ :: rest => pushAfterClose rest

/-- A schedule of a daemon with one ticker: `Run` starts its goroutines,
`startTickers` starts the ticker goroutine and returns, and the wait on the
returned wait group comes before the ticker goroutine has run `wg.Add(1)`. -/
def Run.earlyWaitSchedule : List Goroutine :=
  [.run, .run, .run, .startTickers, .startTickers, .startTickers]

/-- The schedule `Run.earlyWaitSchedule` continued: `Stop` sends the stop
signal, the command loop ends, and `Run` sleeps, logs and closes the telemetry
channel, while the ticker goroutine still stands at its `wg.Add(1)`. -/
def Run.closeSchedule : List Goroutine :=
  Run.earlyWaitSchedule ++
    [.startTickers, .stop, .commandLoop, .commandLoop, .run, .run, .run, .run]

/-- The schedule `Run.closeSchedule` continued: after `Run` has returned, the
ticker goroutine registers and enters `t.Run()`. -/
def Run.returnSchedule : List Goroutine :=
  Run.closeSchedule ++ [.ticker 0, .ticker 0]

/-- The schedule `Run.returnSchedule` continued by one period of the ticker. -/
def Run.pushSchedule : List Goroutine :=
  Run.returnSchedule ++ [.ticker 0]

/-- A schedule of a daemon with one ticker in which the ticker goroutine
registers before the wait: the ticker pushes twice, `Stop` runs to the end,
the ticker returns, and `Run` closes the channel after it. -/
def Run.orderlySchedule : List Goroutine :=
  [.run, .run, .run, .startTickers, .ticker 0, .startTickers, .ticker 0, .ticker 0,
    .ticker 0, .stop, .stop, .stop, .commandLoop, .commandLoop, .ticker 0, .ticker 0,
    .startTickers, .startTickers, .run, .run, .run, .run]

/-! ## Concrete collaborators used to instantiate the theorems -/

/-- A concrete instrument value: the constructor name and its device list. -/
abbrev SampleInstrument := String × List String

/-- A concrete ticker value: the three arguments of `NewTelemetryTicker`. -/
abbrev SampleTicker := SampleInstrument × String × Duration

/-- A concrete factory: each method returns a value naming the method and its
argument. -/
def sampleFactory : InstrumentFactory SampleInstrument where
  NewCpuUtilInstrument := ("CpuUtil", [])
  NewCpuFrequencyInstrument := ("CpuFrequency", [])
  NewLoadInstrument := ("Load", [])
  NewRamInstrument := ("Ram", [])
  NewProcsInstrument := ("Procs", [])
  NewNetworkDataRateInstrument := fun d => ("NetworkDataRate", d.elems)
  NewDiskDataRateInstrument := fun d => ("DiskDataRate", d.elems)
  NewGpuFrequencyInstrument := fun d => ("GpuFrequency", d.elems)
  NewGpuUtilInstrument := fun d => ("GpuUtil", d.elems)
  NewCgroupCpuInstrument := ("CgroupCpu", [])
  NewCgroupBlkioInstrument := ("CgroupBlkio", [])
  NewCgroupNetworkInstrument := ("CgroupNetwork", [])

/-- A concrete ticker constructor. -/
def sampleNewTicker : SampleInstrument → String → Duration → SampleTicker :=
  fun i c p => (i, c, p)

/-- A concrete configuration with the given disable-list, enable-list and
period mapping. -/
def sampleConfig (disable enable : Slice String) (periods : GoMap Duration) : Config :=
  { Instruments :=
      { Net := { Devices := .mk ["eth0"] }
        Disk := { Devices := .mk ["sda"] }
        Gpu := { Devices := .nil }
        Enable := enable
        Disable := disable
        Periods := periods } }

/-- A concrete daemon as `NewDaemon` builds it before `initInstruments` runs. -/
def sampleDaemon (disable enable : Slice String) (periods : GoMap Duration) :
    Daemon SampleInstrument String SampleTicker Unit :=
  { cfg := sampleConfig disable enable periods
    cmds := ()
    isPausedByCommand := false
    telemetry := "telemetry"
    instruments := GoMap.make
    tickers := GoMap.make }

/-- A concrete daemon after construction, with two active instruments and
their tickers. -/
def sampleRunningDaemon : Daemon SampleInstrument String SampleTicker Unit :=
  { cfg := sampleConfig .nil (.mk ["cpu", "ram"]) [("cpu", 500000000)]
    cmds := ()
    isPausedByCommand := false
    telemetry := "telemetry"
    instruments := [("cpu", ("CpuUtil", [])), ("ram", ("Ram", []))]
    tickers := [("cpu", (("CpuUtil", []), "telemetry", 500000000)),
      ("ram", (("Ram", []), "telemetry", 1000000000))] }

/-! ## Theorems -/

/-! ### Maps -/

theorem GoMap.get_eq_none_iff {V : Type} (m : GoMap V) (k : String) :
    GoMap.get m k = none ↔ k ∉ GoMap.keys m := by
  induction m with
  | nil => simp [GoMap.get, GoMap.keys]
  | cons p rest ih =>
    obtain ⟨k', v⟩ := p
    by_cases h : k' = k
    · simp [GoMap.get, GoMap.keys, h]
    · have h' : ¬ k = k' := fun e => h e.symm
      simpa [GoMap.get, GoMap.keys, h, h'] using ih

theorem GoMap.get_isSome_iff {V : Type} (m : GoMap V) (k : String) :
    (GoMap.get m k).isSome = true ↔ k ∈ GoMap.keys m := by
  rw [← not_iff_not, ← GoMap.get_eq_none_iff]
  cases GoMap.get m k <;> simp

theorem GoMap.get_filter_key {V : Type} (q : String → Bool) (m : GoMap V) (k : String) :
    GoMap.get (m.filter (fun p => q p.1)) k = if q k = true then GoMap.get m k else none := by
  induction m with
  | nil => simp [GoMap.get]
  | cons p rest ih =>
    obtain ⟨k', v⟩ := p
    by_cases hq : q k' = true
    · by_cases h : k' = k
      · subst h
        simp [List.filter_cons, hq, GoMap.get]
      · simp [List.filter_cons, hq, GoMap.get, h, ih]
    · by_cases h : k' = k
      · subst h
        simp [List.filter_cons, hq, GoMap.get, ih]
      · simp [List.filter_cons, hq, GoMap.get, h, ih]

theorem GoMap.foldl_delete {V : Type} (l : List String) (m : GoMap V) :
    l.foldl GoMap.delete m = m.filter (fun p => decide (p.1 ∉ l)) := by
  induction l generalizing m with
  | nil => simp
  | cons a rest ih =>
    rw [List.foldl_cons, ih, GoMap.delete, List.filter_filter]
    congr 1
    funext p
    by_cases h1 : p.1 = a <;> by_cases h2 : p.1 ∈ rest <;> simp [h1, h2]

theorem GoMap.keys_filter_key {V : Type} (q : String → Bool) (m : GoMap V) :
    GoMap.keys (m.filter (fun p => q p.1)) = (GoMap.keys m).filter q := by
  induction m with
  | nil => rfl
  | cons p rest ih =>
    by_cases hq : q p.1 = true
    · simp only [GoMap.keys] at ih
      simp [GoMap.keys, List.filter_cons, hq, ih]
    · simp only [GoMap.keys] at ih
      simp [GoMap.keys, List.filter_cons, hq, ih]

theorem initInstruments.keys_instruments {I : Type} (factory : InstrumentFactory I)
    (cfg : Config) :
    GoMap.keys (initInstruments.instruments factory cfg) =
      ["cpu", "freq", "load", "ram", "procs", "net", "disk", "gpu_freq", "gpu_util",
        "cgrp_cpu", "cgrp_blkio", "cgrp_net"] := rfl

theorem initInstruments.nodup_instruments {I : Type} (factory : InstrumentFactory I)
    (cfg : Config) : (GoMap.keys (initInstruments.instruments factory cfg)).Nodup := by
  rw [initInstruments.keys_instruments]
  decide

theorem initInstruments.disable_branch {I C T Q : Type} (factory : InstrumentFactory I)
    (daemon : Daemon I C T Q) (h : 0 < daemon.cfg.Instruments.Disable.len) :
    (initInstruments factory daemon).1.instruments =
      (initInstruments.instruments factory daemon.cfg).filter
        (fun p => decide (p.1 ∉ daemon.cfg.Instruments.Disable.elems)) := by
  have hnil : daemon.cfg.Instruments.Disable.isNotNil = true := by
    cases hd : daemon.cfg.Instruments.Disable with
    | nil => rw [hd] at h; simp [Slice.len] at h
    | mk l => rfl
  simp [initInstruments, hnil, h, GoMap.foldl_delete]

theorem GoMap.get_set {V : Type} (m : GoMap V) (k : String) (v : V) (k' : String) :
    GoMap.get (GoMap.set m k v) k' = if k = k' then some v else GoMap.get m k' := by
  induction m with
  | nil => simp [GoMap.set, GoMap.get]
  | cons p rest ih =>
    obtain ⟨a, b⟩ := p
    by_cases h : a = k
    · subst h
      by_cases h' : a = k' <;> simp [GoMap.set, GoMap.get, h']
    · by_cases h' : a = k'
      · subst h'
        have h'' : ¬ k = a := fun e => h e.symm
        simp [GoMap.set, GoMap.get, h, h'']
      · simp [GoMap.set, GoMap.get, h, h', ih]

theorem GoMap.mem_keys_set {V : Type} (m : GoMap V) (k : String) (v : V) (k' : String) :
    k' ∈ GoMap.keys (GoMap.set m k v) ↔ k' = k ∨ k' ∈ GoMap.keys m := by
  rw [← GoMap.get_isSome_iff, ← GoMap.get_isSome_iff, GoMap.get_set]
  by_cases h : k = k'
  · simp [h]
  · have h' : ¬ k' = k := fun e => h e.symm
    simp [h, h']

theorem GoMap.nodup_keys_set {V : Type} (m : GoMap V) (k : String) (v : V)
    (h : (GoMap.keys m).Nodup) : (GoMap.keys (GoMap.set m k v)).Nodup := by
  induction m with
  | nil => simp [GoMap.set, GoMap.keys]
  | cons p rest ih =>
    obtain ⟨a, b⟩ := p
    have hcons : a ∉ GoMap.keys rest ∧ (GoMap.keys rest).Nodup := by
      simpa [GoMap.keys] using h
    by_cases hk : a = k
    · subst hk
      simpa [GoMap.set, GoMap.keys] using h
    · have hmem : a ∉ GoMap.keys (GoMap.set rest k v) := by
        rw [GoMap.mem_keys_set]
        exact fun hor => hor.elim hk hcons.1
      have ih' := ih hcons.2
      simp only [GoMap.keys] at hmem ih'
      simp only [GoMap.set, hk, if_false, GoMap.keys, List.map_cons, List.nodup_cons]
      exact ⟨hmem, ih'⟩

theorem initInstruments.get_enable_fold {I : Type} (full : GoMap I) (l : List String)
    (acc : GoMap I) (k : String) :
    GoMap.get (l.foldl (initInstruments.enableStep full) acc) k =
      if k ∈ l ∧ (GoMap.get full k).isSome = true then GoMap.get full k
      else GoMap.get acc k := by
  induction l generalizing acc with
  | nil => simp
  | cons a rest ih =>
    rw [List.foldl_cons, ih]
    by_cases hrest : k ∈ rest ∧ (GoMap.get full k).isSome = true
    · have : k ∈ a :: rest ∧ (GoMap.get full k).isSome = true :=
        ⟨List.mem_cons_of_mem _ hrest.1, hrest.2⟩
      rw [if_pos hrest, if_pos this]
    · rw [if_neg hrest]
      by_cases hak : a = k
      · subst hak
        cases hfull : GoMap.get full a with
        | none => simp [initInstruments.enableStep, hfull]
        | some v => simp [initInstruments.enableStep, hfull, GoMap.get_set]
      · have hka : ¬ k = a := fun e => hak e.symm
        have hne : ¬ (k ∈ a :: rest ∧ (GoMap.get full k).isSome = true) := by
          rintro ⟨hm, hs⟩
          rcases List.mem_cons.1 hm with e | hm'
          · exact hka e
          · exact hrest ⟨hm', hs⟩
        rw [if_neg hne]
        cases hfull : GoMap.get full a with
        | none => simp [initInstruments.enableStep, hfull]
        | some v => simp [initInstruments.enableStep, hfull, GoMap.get_set, hak]

theorem initInstruments.nodup_enable_fold {I : Type} (full : GoMap I) (l : List String)
    (acc : GoMap I) (h : (GoMap.keys acc).Nodup) :
    (GoMap.keys (l.foldl (initInstruments.enableStep full) acc)).Nodup := by
  induction l generalizing acc with
  | nil => simpa using h
  | cons a rest ih =>
    rw [List.foldl_cons]
    apply ih
    cases hfull : GoMap.get full a with
    | none => simpa [initInstruments.enableStep, hfull] using h
    | some v =>
      simp only [initInstruments.enableStep, hfull]
      exact GoMap.nodup_keys_set acc a v h

theorem initInstruments.enable_branch {I C T Q : Type} (factory : InstrumentFactory I)
    (daemon : Daemon I C T Q) (hd : daemon.cfg.Instruments.Disable.len = 0)
    (he : 0 < daemon.cfg.Instruments.Enable.len) :
    (initInstruments factory daemon).1.instruments =
      daemon.cfg.Instruments.Enable.elems.foldl
        (initInstruments.enableStep (initInstruments.instruments factory daemon.cfg))
        GoMap.make := by
  have hnil : daemon.cfg.Instruments.Enable.isNotNil = true := by
    cases hd : daemon.cfg.Instruments.Enable with
    | nil => rw [hd] at he; simp [Slice.len] at he
    | mk l => rfl
  simp [initInstruments, hnil, he, hd]

theorem initInstruments.get_enable_branch {I C T Q : Type} (factory : InstrumentFactory I)
    (daemon : Daemon I C T Q) (hd : daemon.cfg.Instruments.Disable.len = 0)
    (he : 0 < daemon.cfg.Instruments.Enable.len) (k : String) :
    GoMap.get (initInstruments factory daemon).1.instruments k =
      if k ∈ daemon.cfg.Instruments.Enable.elems then
        GoMap.get (initInstruments.instruments factory daemon.cfg) k
      else none := by
  rw [initInstruments.enable_branch factory daemon hd he, initInstruments.get_enable_fold]
  by_cases hk : k ∈ daemon.cfg.Instruments.Enable.elems
  · cases hfull : GoMap.get (initInstruments.instruments factory daemon.cfg) k <;>
      simp [hk, GoMap.make, GoMap.get]
  · simp [hk, GoMap.make, GoMap.get]

theorem Slice.mem_elems_add (s : Slice String) (i : Nat) (k k' : String) :
    k' ∈ (s.add i k).elems ↔ k' = k ∨ k' ∈ s.elems := by
  have hsplit : k' ∈ s.elems ↔ k' ∈ s.elems.take i ∨ k' ∈ s.elems.drop i := by
    conv_lhs => rw [← List.take_append_drop i s.elems]
    exact List.mem_append
  have hadd : (s.add i k).elems = s.elems.take i ++ k :: s.elems.drop i := rfl
  rw [hadd, hsplit, List.mem_append, List.mem_cons]
  tauto

theorem Slice.len_add_pos (s : Slice String) (i : Nat) (k : String) : 0 < (s.add i k).len := by
  simp [Slice.add, Slice.len]

theorem Slice.elems_eq_nil_of_len {α : Type} (s : Slice α) (h : s.len = 0) : s.elems = [] := by
  cases s with
  | nil => rfl
  | mk l => exact List.length_eq_zero.1 h

theorem initInstruments.enable_fold_unknown {I : Type} (full : GoMap I) (l : List String)
    (i : Nat) (key : String) (hkey : key ∉ GoMap.keys full) (acc : GoMap I) :
    (l.take i ++ key :: l.drop i).foldl (initInstruments.enableStep full) acc =
      l.foldl (initInstruments.enableStep full) acc := by
  have hstep : ∀ a : GoMap I, initInstruments.enableStep full a key = a := by
    intro a
    simp [initInstruments.enableStep, (GoMap.get_eq_none_iff full key).2 hkey]
  conv_rhs => rw [← List.take_append_drop i l]
  rw [List.foldl_append, List.foldl_append, List.foldl_cons, hstep]

theorem initInstruments.filter_unknown {I : Type} (full : GoMap I) (s : Slice String)
    (i : Nat) (key : String) (hkey : key ∉ GoMap.keys full) :
    full.filter (fun p => decide (p.1 ∉ (s.add i key).elems)) =
      full.filter (fun p => decide (p.1 ∉ s.elems)) := by
  apply List.filter_congr
  intro p hp
  have hne : p.1 ≠ key := by
    intro e
    apply hkey
    rw [← e]
    exact List.mem_map_of_mem Prod.fst hp
  simp [Slice.mem_elems_add, hne]

theorem GoMap.get_eq_some_iff {V : Type} (m : GoMap V) (h : (GoMap.keys m).Nodup)
    (k : String) (v : V) : GoMap.get m k = some v ↔ (k, v) ∈ m := by
  induction m with
  | nil => simp [GoMap.get]
  | cons p rest ih =>
    obtain ⟨a, b⟩ := p
    have hcons : a ∉ GoMap.keys rest ∧ (GoMap.keys rest).Nodup := by
      simpa [GoMap.keys] using h
    by_cases hk : a = k
    · subst hk
      have hnot : ∀ v' : V, (a, v') ∉ rest := fun v' hm =>
        hcons.1 (List.mem_map_of_mem Prod.fst hm)
      simp [GoMap.get, hnot v, eq_comm]
    · have hk' : ¬ k = a := fun e => hk e.symm
      simp [GoMap.get, hk, hk', ih hcons.2]

theorem GoMap.get_perm {V : Type} (m m' : GoMap V) (hp : m.Perm m')
    (h : (GoMap.keys m').Nodup) (k : String) : GoMap.get m k = GoMap.get m' k := by
  have h' : (GoMap.keys m).Nodup := ((hp.map Prod.fst).nodup_iff).2 h
  apply Option.ext
  intro v
  simp only [Option.mem_def]
  rw [GoMap.get_eq_some_iff m h', GoMap.get_eq_some_iff m' h]
  exact hp.mem_iff

theorem initTickers.body_fst {I C T Q : Type} (N : I → C → Duration → T)
    (st : Daemon I C T Q × List (Effect C T)) (entry : String × I) :
    (initTickers.body N st entry).1 =
      { st.1 with
        tickers := GoMap.set st.1.tickers entry.1
          (N entry.2 st.1.telemetry (resolvedPeriod st.1.cfg entry.1)) } := by
  unfold initTickers.body resolvedPeriod
  dsimp only
  cases GoMap.get st.1.cfg.Instruments.Periods entry.1 <;> rfl

theorem initTickers.body_snd {I C T Q : Type} (N : I → C → Duration → T)
    (st : Daemon I C T Q × List (Effect C T)) (entry : String × I) :
    (initTickers.body N st entry).2 =
      st.2 ++ (if (GoMap.get st.1.cfg.Instruments.Periods entry.1).isNone = true
        then [noPeriodWarning entry.1] else []) := by
  unfold initTickers.body
  dsimp only
  cases GoMap.get st.1.cfg.Instruments.Periods entry.1 <;> simp [noPeriodWarning]

theorem initTickers.fold_frame {I C T Q : Type} (N : I → C → Duration → T)
    (order : List (String × I)) (st : Daemon I C T Q × List (Effect C T)) :
    (order.foldl (initTickers.body N) st).1.cfg = st.1.cfg ∧
      (order.foldl (initTickers.body N) st).1.telemetry = st.1.telemetry ∧
      (order.foldl (initTickers.body N) st).1.instruments = st.1.instruments ∧
      (order.foldl (initTickers.body N) st).1.cmds = st.1.cmds ∧
      (order.foldl (initTickers.body N) st).1.isPausedByCommand = st.1.isPausedByCommand := by
  induction order generalizing st with
  | nil => simp
  | cons e rest ih =>
    rw [List.foldl_cons]
    have h := ih (initTickers.body N st e)
    rw [initTickers.body_fst] at h
    exact h

theorem initTickers.fold_get {I C T Q : Type} (N : I → C → Duration → T)
    (order : List (String × I)) (hnd : (GoMap.keys order).Nodup)
    (st : Daemon I C T Q × List (Effect C T)) (k : String) :
    GoMap.get (order.foldl (initTickers.body N) st).1.tickers k =
      match GoMap.get order k with
      | some i => some (N i st.1.telemetry (resolvedPeriod st.1.cfg k))
      | none => GoMap.get st.1.tickers k := by
  induction order generalizing st with
  | nil => simp [GoMap.get]
  | cons e rest ih =>
    obtain ⟨a, i⟩ := e
    have hcons : a ∉ GoMap.keys rest ∧ (GoMap.keys rest).Nodup := by
      simpa [GoMap.keys] using hnd
    rw [List.foldl_cons, ih hcons.2, initTickers.body_fst]
    by_cases hk : a = k
    · subst hk
      simp [GoMap.get, (GoMap.get_eq_none_iff rest a).2 hcons.1, GoMap.get_set]
    · simp [GoMap.get, hk, GoMap.get_set]

theorem initTickers.fold_nodup {I C T Q : Type} (N : I → C → Duration → T)
    (order : List (String × I)) (st : Daemon I C T Q × List (Effect C T))
    (h : (GoMap.keys st.1.tickers).Nodup) :
    (GoMap.keys (order.foldl (initTickers.body N) st).1.tickers).Nodup := by
  induction order generalizing st with
  | nil => simpa using h
  | cons e rest ih =>
    rw [List.foldl_cons]
    apply ih
    rw [initTickers.body_fst]
    exact GoMap.nodup_keys_set _ _ _ h

theorem initTickers.fold_effects {I C T Q : Type} (N : I → C → Duration → T)
    (order : List (String × I)) (st : Daemon I C T Q × List (Effect C T)) :
    (order.foldl (initTickers.body N) st).2 =
      st.2 ++ ((GoMap.keys order).filter
        (fun k => (GoMap.get st.1.cfg.Instruments.Periods k).isNone)).map noPeriodWarning := by
  induction order generalizing st with
  | nil => simp [GoMap.keys]
  | cons e rest ih =>
    rw [List.foldl_cons, ih, initTickers.body_snd, initTickers.body_fst]
    by_cases hp : (GoMap.get st.1.cfg.Instruments.Periods e.1).isNone = true
    · simp [GoMap.keys, List.filter_cons, hp]
    · simp [GoMap.keys, List.filter_cons, hp]

theorem noPeriodWarning_injective {C T : Type} :
    Function.Injective (noPeriodWarning : String → Effect C T) := by
  intro a b h
  simp only [noPeriodWarning, Effect.println.injEq, List.cons.injEq, LogArg.str.injEq] at h
  exact h.2.1

theorem Stop.fold_eq {C T : Type} (order : List (String × T)) (acc : List (Effect C T)) :
    order.foldl Stop.body acc = acc ++ order.foldl Stop.body [] := by
  induction order generalizing acc with
  | nil => simp
  | cons e rest ih =>
    rw [List.foldl_cons, List.foldl_cons, ih, ih (Stop.body [] e)]
    simp [Stop.body]

theorem Stop.fold_stopped {C T : Type} (order : List (String × T)) :
    (order.foldl Stop.body ([] : List (Effect C T))).filterMap Effect.stoppedTicker =
      order.map Prod.snd := by
  induction order with
  | nil => rfl
  | cons e rest ih =>
    rw [List.foldl_cons, Stop.fold_eq, List.filterMap_append, ih]
    simp [Stop.body, Effect.stoppedTicker, List.filterMap_cons]

theorem Stop.fold_kinds {C T : Type} (order : List (String × T)) :
    ∀ e ∈ order.foldl Stop.body ([] : List (Effect C T)),
      e.isSendStop = false ∧ e.isTelemetryClose = false ∧
        (e.isPrintln = true ∨ (e.stoppedTicker).isSome = true) := by
  induction order with
  | nil => simp
  | cons a rest ih =>
    intro e he
    rw [List.foldl_cons, Stop.fold_eq, List.mem_append] at he
    rcases he with he | he
    · simp only [Stop.body, List.nil_append, List.mem_cons, List.mem_singleton,
        List.not_mem_nil, or_false] at he
      rcases he with rfl | rfl <;>
        simp [Effect.isSendStop, Effect.isTelemetryClose, Effect.isPrintln,
          Effect.stoppedTicker]
    · exact ih e he

theorem initInstruments.neither_branch {I C T Q : Type} (factory : InstrumentFactory I)
    (daemon : Daemon I C T Q)
    (hd : daemon.cfg.Instruments.Disable.len = 0)
    (he : daemon.cfg.Instruments.Enable.len = 0) :
    (initInstruments factory daemon).1.instruments =
      initInstruments.instruments factory daemon.cfg := by
  simp [initInstruments, hd, he]

/-! ### Instrument selection -/

/-- C3: when the disable-list is non-empty, then for every enable-list the
active instrument map set by `initInstruments` is the full instrument map with
exactly the keys named in the disable-list removed, and every remaining key is
bound to the instrument the factory built for it. -/
theorem initInstruments_disable_dominates {I C T Q : Type} (factory : InstrumentFactory I)
    (daemon : Daemon I C T Q) (enable : Slice String)
    (h : 0 < daemon.cfg.Instruments.Disable.len) :
    (initInstruments factory (daemon.withEnable enable)).1.instruments =
        (initInstruments.instruments factory daemon.cfg).filter
          (fun p => decide (p.1 ∉ daemon.cfg.Instruments.Disable.elems)) ∧
      GoMap.keys (initInstruments factory (daemon.withEnable enable)).1.instruments =
        (GoMap.keys (initInstruments.instruments factory daemon.cfg)).filter
          (fun k => decide (k ∉ daemon.cfg.Instruments.Disable.elems)) ∧
      ∀ k : String,
        GoMap.get (initInstruments factory (daemon.withEnable enable)).1.instruments k =
          if k ∈ daemon.cfg.Instruments.Disable.elems then none
          else GoMap.get (initInstruments.instruments factory daemon.cfg) k := by
  have key := initInstruments.disable_branch factory (daemon.withEnable enable) h
  have hfull : initInstruments.instruments factory (daemon.withEnable enable).cfg =
      initInstruments.instruments factory daemon.cfg := rfl
  have hdis : (daemon.withEnable enable).cfg.Instruments.Disable =
      daemon.cfg.Instruments.Disable := rfl
  rw [hfull, hdis] at key
  refine ⟨key, ?_, ?_⟩
  · rw [key]
    exact GoMap.keys_filter_key
      (fun k => decide (k ∉ daemon.cfg.Instruments.Disable.elems)) _
  · intro k
    rw [key]
    rw [GoMap.get_filter_key (fun k => decide (k ∉ daemon.cfg.Instruments.Disable.elems))]
    by_cases hk : k ∈ daemon.cfg.Instruments.Disable.elems <;> simp [hk]

theorem initInstruments_disable_dominates_witness :
    0 < (sampleDaemon (.mk ["gpu_util", "nosuch", "cpu"]) .nil []).cfg.Instruments.Disable.len ∧
      GoMap.keys (initInstruments sampleFactory
        ((sampleDaemon (.mk ["gpu_util", "nosuch", "cpu"]) .nil []).withEnable
          (.mk ["cpu", "ram"]))).1.instruments =
        ["freq", "load", "ram", "procs", "net", "disk", "gpu_freq", "cgrp_cpu",
          "cgrp_blkio", "cgrp_net"] :=
  ⟨by decide,
    (initInstruments_disable_dominates sampleFactory
      (sampleDaemon (.mk ["gpu_util", "nosuch", "cpu"]) .nil []) (.mk ["cpu", "ram"])
      (by decide)).2.1.trans (by decide)⟩

theorem initInstruments.nodup_active {I C T Q : Type} (factory : InstrumentFactory I)
    (daemon : Daemon I C T Q) :
    (GoMap.keys (initInstruments factory daemon).1.instruments).Nodup ∧
      (initInstruments factory daemon).1.tickers = daemon.tickers := by
  by_cases hd : 0 < daemon.cfg.Instruments.Disable.len
  · refine ⟨?_, ?_⟩
    · rw [initInstruments.disable_branch factory daemon hd,
        GoMap.keys_filter_key (fun k => decide (k ∉ daemon.cfg.Instruments.Disable.elems))]
      exact (initInstruments.nodup_instruments factory daemon.cfg).filter _
    · have hnil : daemon.cfg.Instruments.Disable.isNotNil = true := by
        cases hs : daemon.cfg.Instruments.Disable with
        | nil => rw [hs] at hd; simp [Slice.len] at hd
        | mk l => rfl
      simp [initInstruments, hnil, hd]
  · have hd0 : daemon.cfg.Instruments.Disable.len = 0 := Nat.eq_zero_of_not_pos hd
    by_cases he : 0 < daemon.cfg.Instruments.Enable.len
    · refine ⟨?_, ?_⟩
      · rw [initInstruments.enable_branch factory daemon hd0 he]
        exact initInstruments.nodup_enable_fold _ _ _ (by simp [GoMap.make, GoMap.keys])
      · have hnil : daemon.cfg.Instruments.Enable.isNotNil = true := by
          cases hs : daemon.cfg.Instruments.Enable with
          | nil => rw [hs] at he; simp [Slice.len] at he
          | mk l => rfl
        simp [initInstruments, hnil, he, hd0]
    · have he0 : daemon.cfg.Instruments.Enable.len = 0 := Nat.eq_zero_of_not_pos he
      refine ⟨?_, ?_⟩
      · rw [initInstruments.neither_branch factory daemon hd0 he0]
        exact initInstruments.nodup_instruments factory daemon.cfg
      · simp [initInstruments, hd0, he0]

/-- C5: when the disable-list and the enable-list are both nil or empty, the
active instrument map set by `initInstruments` is the full instrument map. -/
theorem initInstruments_neither_list {I C T Q : Type} (factory : InstrumentFactory I)
    (daemon : Daemon I C T Q)
    (hd : daemon.cfg.Instruments.Disable.len = 0)
    (he : daemon.cfg.Instruments.Enable.len = 0) :
    (initInstruments factory daemon).1.instruments =
      initInstruments.instruments factory daemon.cfg :=
  initInstruments.neither_branch factory daemon hd he

theorem initInstruments_neither_list_witness :
    (sampleDaemon (.mk []) .nil []).cfg.Instruments.Disable.len = 0 ∧
      (sampleDaemon (.mk []) .nil []).cfg.Instruments.Enable.len = 0 ∧
      (initInstruments sampleFactory (sampleDaemon (.mk []) .nil [])).1.instruments =
        initInstruments.instruments sampleFactory (sampleConfig (.mk []) .nil []) :=
  ⟨by decide, by decide,
    initInstruments_neither_list sampleFactory (sampleDaemon (.mk []) .nil [])
      (by decide) (by decide)⟩

/-- C4: when the disable-list is nil or empty and the enable-list is non-empty,
the keys of the active instrument map set by `initInstruments` are exactly the
enable-list names that are keys of the full map, without repetition; each is
bound to the instrument the factory built for it; a name outside the full map
is absent; and adding a second copy of a name already in the enable-list, at
any position, changes no binding. -/
theorem initInstruments_enable_intersection {I C T Q : Type} (factory : InstrumentFactory I)
    (daemon : Daemon I C T Q)
    (hd : daemon.cfg.Instruments.Disable.len = 0)
    (he : 0 < daemon.cfg.Instruments.Enable.len) :
    (∀ k : String, k ∈ GoMap.keys (initInstruments factory daemon).1.instruments ↔
        k ∈ daemon.cfg.Instruments.Enable.elems ∧
          k ∈ GoMap.keys (initInstruments.instruments factory daemon.cfg)) ∧
      (GoMap.keys (initInstruments factory daemon).1.instruments).Nodup ∧
      (∀ k : String, k ∈ GoMap.keys (initInstruments factory daemon).1.instruments →
        GoMap.get (initInstruments factory daemon).1.instruments k =
          GoMap.get (initInstruments.instruments factory daemon.cfg) k) ∧
      (∀ k : String, k ∉ GoMap.keys (initInstruments.instruments factory daemon.cfg) →
        GoMap.get (initInstruments factory daemon).1.instruments k = none) ∧
      (∀ (i : Nat) (k : String), k ∈ daemon.cfg.Instruments.Enable.elems →
        ∀ k' : String,
          GoMap.get (initInstruments factory
            (daemon.withEnable (daemon.cfg.Instruments.Enable.add i k))).1.instruments k' =
          GoMap.get (initInstruments factory daemon).1.instruments k') := by
  have hget := initInstruments.get_enable_branch factory daemon hd he
  have hmem : ∀ k : String, k ∈ GoMap.keys (initInstruments factory daemon).1.instruments ↔
      k ∈ daemon.cfg.Instruments.Enable.elems ∧
        k ∈ GoMap.keys (initInstruments.instruments factory daemon.cfg) := by
    intro k
    rw [← GoMap.get_isSome_iff, ← GoMap.get_isSome_iff, hget]
    by_cases hk : k ∈ daemon.cfg.Instruments.Enable.elems <;> simp [hk]
  refine ⟨hmem, ?_, ?_, ?_, ?_⟩
  · rw [initInstruments.enable_branch factory daemon hd he]
    exact initInstruments.nodup_enable_fold _ _ _ (by simp [GoMap.make, GoMap.keys])
  · intro k hk
    rw [hget, if_pos ((hmem k).1 hk).1]
  · intro k hk
    rw [hget]
    by_cases hin : k ∈ daemon.cfg.Instruments.Enable.elems
    · rw [if_pos hin]
      exact (GoMap.get_eq_none_iff _ _).2 hk
    · rw [if_neg hin]
  · intro i k hk k'
    have hget' := initInstruments.get_enable_branch factory
      (daemon.withEnable (daemon.cfg.Instruments.Enable.add i k)) hd
      (Slice.len_add_pos _ i k) k'
    have hcfg : (daemon.withEnable (daemon.cfg.Instruments.Enable.add i k)).cfg.Instruments.Enable =
        daemon.cfg.Instruments.Enable.add i k := rfl
    have hfull : initInstruments.instruments factory
        (daemon.withEnable (daemon.cfg.Instruments.Enable.add i k)).cfg =
        initInstruments.instruments factory daemon.cfg := rfl
    rw [hget', hget, hcfg, hfull]
    have hiff : k' ∈ (daemon.cfg.Instruments.Enable.add i k).elems ↔
        k' ∈ daemon.cfg.Instruments.Enable.elems := by
      rw [Slice.mem_elems_add]
      constructor
      · rintro (e | h)
        · exact e ▸ hk
        · exact h
      · exact Or.inr
    by_cases hin : k' ∈ daemon.cfg.Instruments.Enable.elems
    · rw [if_pos (hiff.2 hin), if_pos hin]
    · rw [if_neg (fun h => hin (hiff.1 h)), if_neg hin]

theorem initInstruments_enable_intersection_witness :
    (sampleDaemon .nil (.mk ["ram", "nosuch", "cpu", "ram"]) []).cfg.Instruments.Disable.len = 0 ∧
      0 < (sampleDaemon .nil (.mk ["ram", "nosuch", "cpu", "ram"]) []).cfg.Instruments.Enable.len ∧
      (initInstruments sampleFactory
        (sampleDaemon .nil (.mk ["ram", "nosuch", "cpu", "ram"]) [])).1.instruments =
        [("ram", ("Ram", [])), ("cpu", ("CpuUtil", []))] ∧
      (GoMap.keys (initInstruments sampleFactory
        (sampleDaemon .nil (.mk ["ram", "nosuch", "cpu", "ram"]) [])).1.instruments).Nodup :=
  ⟨by decide, by decide, by decide,
    (initInstruments_enable_intersection sampleFactory
      (sampleDaemon .nil (.mk ["ram", "nosuch", "cpu", "ram"]) [])
      (by decide) (by decide)).2.1⟩

/-- C10: the full instrument map built by `initInstruments` has exactly the
twelve distinct keys cpu, freq, load, ram, procs, net, disk, gpu_freq,
gpu_util, cgrp_cpu, cgrp_blkio, cgrp_net, and with a disable-list naming
exactly gpu_freq and gpu_util the active map has exactly the other ten keys. -/
theorem initInstruments_default_twelve_minus_gpu {I C T Q : Type}
    (factory : InstrumentFactory I) (daemon : Daemon I C T Q)
    (h : ∀ k : String, k ∈ daemon.cfg.Instruments.Disable.elems ↔
      k = "gpu_freq" ∨ k = "gpu_util") :
    GoMap.keys (initInstruments.instruments factory daemon.cfg) =
        ["cpu", "freq", "load", "ram", "procs", "net", "disk", "gpu_freq", "gpu_util",
          "cgrp_cpu", "cgrp_blkio", "cgrp_net"] ∧
      (GoMap.keys (initInstruments.instruments factory daemon.cfg)).Nodup ∧
      (GoMap.keys (initInstruments.instruments factory daemon.cfg)).length = 12 ∧
      GoMap.keys (initInstruments factory daemon).1.instruments =
        ["cpu", "freq", "load", "ram", "procs", "net", "disk", "cgrp_cpu", "cgrp_blkio",
          "cgrp_net"] ∧
      (GoMap.keys (initInstruments factory daemon).1.instruments).Nodup ∧
      (GoMap.keys (initInstruments factory daemon).1.instruments).length = 10 ∧
      (∀ k : String, k ∈ GoMap.keys (initInstruments factory daemon).1.instruments ↔
        k ∈ GoMap.keys (initInstruments.instruments factory daemon.cfg) ∧
          k ≠ "gpu_freq" ∧ k ≠ "gpu_util") := by
  have hpos : 0 < daemon.cfg.Instruments.Disable.len := by
    have hm : "gpu_freq" ∈ daemon.cfg.Instruments.Disable.elems := (h _).2 (Or.inl rfl)
    cases hs : daemon.cfg.Instruments.Disable with
    | nil => rw [hs] at hm; simp [Slice.elems] at hm
    | mk l =>
      rw [hs] at hm
      exact List.length_pos_of_mem hm
  have hkeys : GoMap.keys (initInstruments factory daemon).1.instruments =
      ["cpu", "freq", "load", "ram", "procs", "net", "disk", "cgrp_cpu", "cgrp_blkio",
        "cgrp_net"] := by
    rw [initInstruments.disable_branch factory daemon hpos,
      GoMap.keys_filter_key (fun k => decide (k ∉ daemon.cfg.Instruments.Disable.elems)),
      initInstruments.keys_instruments]
    have hq : (fun k => decide (k ∉ daemon.cfg.Instruments.Disable.elems)) =
        (fun k => decide (¬ (k = "gpu_freq" ∨ k = "gpu_util"))) := by
      funext k
      simp only [h k]
    rw [hq]
    decide
  refine ⟨initInstruments.keys_instruments factory daemon.cfg,
    initInstruments.nodup_instruments factory daemon.cfg, ?_, hkeys, ?_, ?_, ?_⟩
  · rw [initInstruments.keys_instruments]; rfl
  · rw [hkeys]; decide
  · rw [hkeys]; rfl
  · intro k
    rw [hkeys, initInstruments.keys_instruments]
    simp only [List.mem_cons, List.mem_singleton, List.not_mem_nil, or_false]
    constructor
    · intro hk
      rcases hk with e | e | e | e | e | e | e | e | e | e <;> subst e <;> decide
    · rintro ⟨hk, h1, h2⟩
      rcases hk with e | e | e | e | e | e | e | e | e | e | e | e
      all_goals first
        | exact absurd e h1
        | exact absurd e h2
        | (subst e; decide)

theorem initInstruments_default_twelve_minus_gpu_witness :
    (∀ k : String,
        k ∈ (sampleDaemon (.mk ["gpu_freq", "gpu_util"]) (.mk ["gpu_util"])
          []).cfg.Instruments.Disable.elems ↔ k = "gpu_freq" ∨ k = "gpu_util") ∧
      (initInstruments sampleFactory
        (sampleDaemon (.mk ["gpu_freq", "gpu_util"]) (.mk ["gpu_util"]) [])).1.instruments =
        [("cpu", ("CpuUtil", [])), ("freq", ("CpuFrequency", [])), ("load", ("Load", [])),
          ("ram", ("Ram", [])), ("procs", ("Procs", [])), ("net", ("NetworkDataRate", ["eth0"])),
          ("disk", ("DiskDataRate", ["sda"])), ("cgrp_cpu", ("CgroupCpu", [])),
          ("cgrp_blkio", ("CgroupBlkio", [])), ("cgrp_net", ("CgroupNetwork", []))] ∧
      (GoMap.keys (initInstruments sampleFactory
        (sampleDaemon (.mk ["gpu_freq", "gpu_util"]) (.mk ["gpu_util"])
          [])).1.instruments).length = 10 :=
  ⟨fun k => by simp [sampleDaemon, sampleConfig, Slice.elems], by decide,
    (initInstruments_default_twelve_minus_gpu sampleFactory
      (sampleDaemon (.mk ["gpu_freq", "gpu_util"]) (.mk ["gpu_util"]) [])
      (fun k => by simp [sampleDaemon, sampleConfig, Slice.elems])).2.2.2.2.2.1⟩

/-- C6, counterexample: with both lists nil, adding the unknown key `nosuch` to
the enable-list turns the active set from the full set into the empty set; and
with enable-list `cpu`, adding `nosuch` to the nil disable-list turns the active
set from the single `cpu` entry into the full set. -/
theorem initInstruments_unknown_key_changes_selection :
    "nosuch" ∉ GoMap.keys (initInstruments.instruments sampleFactory
        (sampleDaemon .nil .nil []).cfg) ∧
      (initInstruments sampleFactory (sampleDaemon .nil .nil [])).1.instruments =
        initInstruments.instruments sampleFactory (sampleDaemon .nil .nil []).cfg ∧
      (initInstruments sampleFactory
        ((sampleDaemon .nil .nil []).withEnable
          (Slice.add .nil 0 "nosuch"))).1.instruments = [] ∧
      (initInstruments sampleFactory
        ((sampleDaemon .nil .nil []).withEnable
          (Slice.add .nil 0 "nosuch"))).1.instruments ≠
        (initInstruments sampleFactory (sampleDaemon .nil .nil [])).1.instruments ∧
      (initInstruments sampleFactory (sampleDaemon .nil (.mk ["cpu"]) [])).1.instruments =
        [("cpu", ("CpuUtil", []))] ∧
      (initInstruments sampleFactory
        ((sampleDaemon .nil (.mk ["cpu"]) []).withDisable
          (Slice.add .nil 0 "nosuch"))).1.instruments ≠
        (initInstruments sampleFactory (sampleDaemon .nil (.mk ["cpu"]) [])).1.instruments := by
  decide

/-- C6, amended: for a key that is not in the full instrument map, adding it
at any position to the disable-list leaves the active map unchanged when the
disable-list was already non-empty or the enable-list is nil or empty, and
adding it at any position to the enable-list leaves the active map unchanged
when the disable-list is non-empty or the enable-list was already non-empty. -/
theorem initInstruments_unknown_key_noop {I C T Q : Type} (factory : InstrumentFactory I)
    (daemon : Daemon I C T Q) (key : String) (i : Nat)
    (hkey : key ∉ GoMap.keys (initInstruments.instruments factory daemon.cfg)) :
    ((0 < daemon.cfg.Instruments.Disable.len ∨ daemon.cfg.Instruments.Enable.len = 0) →
        (initInstruments factory
          (daemon.withDisable (daemon.cfg.Instruments.Disable.add i key))).1.instruments =
          (initInstruments factory daemon).1.instruments) ∧
      ((0 < daemon.cfg.Instruments.Disable.len ∨ 0 < daemon.cfg.Instruments.Enable.len) →
        (initInstruments factory
          (daemon.withEnable (daemon.cfg.Instruments.Enable.add i key))).1.instruments =
          (initInstruments factory daemon).1.instruments) := by
  constructor
  · intro hcase
    have hnew := initInstruments.disable_branch factory
      (daemon.withDisable (daemon.cfg.Instruments.Disable.add i key))
      (Slice.len_add_pos _ i key)
    have hfull : initInstruments.instruments factory
        (daemon.withDisable (daemon.cfg.Instruments.Disable.add i key)).cfg =
        initInstruments.instruments factory daemon.cfg := rfl
    have hdis : (daemon.withDisable
        (daemon.cfg.Instruments.Disable.add i key)).cfg.Instruments.Disable =
        daemon.cfg.Instruments.Disable.add i key := rfl
    rw [hfull, hdis, initInstruments.filter_unknown _ _ i key hkey] at hnew
    rw [hnew]
    by_cases hpos : 0 < daemon.cfg.Instruments.Disable.len
    · exact (initInstruments.disable_branch factory daemon hpos).symm
    · have hd : daemon.cfg.Instruments.Disable.len = 0 := Nat.eq_zero_of_not_pos hpos
      have he : daemon.cfg.Instruments.Enable.len = 0 := hcase.resolve_left hpos
      rw [initInstruments.neither_branch factory daemon hd he,
        Slice.elems_eq_nil_of_len _ hd]
      simp
  · intro hcase
    by_cases hpos : 0 < daemon.cfg.Instruments.Disable.len
    · have hnew := initInstruments.disable_branch factory
        (daemon.withEnable (daemon.cfg.Instruments.Enable.add i key)) hpos
      rw [hnew, initInstruments.disable_branch factory daemon hpos]
      rfl
    · have hd : daemon.cfg.Instruments.Disable.len = 0 := Nat.eq_zero_of_not_pos hpos
      have he : 0 < daemon.cfg.Instruments.Enable.len := hcase.resolve_left hpos
      have hnew := initInstruments.enable_branch factory
        (daemon.withEnable (daemon.cfg.Instruments.Enable.add i key)) hd
        (Slice.len_add_pos _ i key)
      rw [hnew, initInstruments.enable_branch factory daemon hd he]
      exact initInstruments.enable_fold_unknown _ _ i key hkey _

theorem initInstruments_unknown_key_noop_witness :
    "nosuch" ∉ GoMap.keys (initInstruments.instruments sampleFactory
        (sampleDaemon (.mk ["ram"]) (.mk ["cpu", "ram"]) []).cfg) ∧
      (initInstruments sampleFactory
        ((sampleDaemon (.mk ["ram"]) (.mk ["cpu", "ram"]) []).withDisable
          (Slice.add (.mk ["ram"]) 1 "nosuch"))).1.instruments =
        (initInstruments sampleFactory
          (sampleDaemon (.mk ["ram"]) (.mk ["cpu", "ram"]) [])).1.instruments :=
  ⟨by decide,
    (initInstruments_unknown_key_noop sampleFactory
      (sampleDaemon (.mk ["ram"]) (.mk ["cpu", "ram"]) []) "nosuch" 1 (by decide)).1
      (Or.inl (by decide))⟩

/-! ### Ticker construction -/

/-- C7: after `initTickers`, run on a daemon whose ticker map is still empty,
the ticker map has exactly the keys of the active instrument map, each once,
and the ticker of an active key is `NewTelemetryTicker` applied to that key's
instrument, the daemon's telemetry channel, and the configured period of the
key when the period map has the key (whatever the value), one second
otherwise. This holds for every order in which the instrument map is
ranged over. -/
theorem initTickers_one_ticker_per_active_instrument {I C T Q : Type}
    (NewTelemetryTicker : I → C → Duration → T) (order : List (String × I))
    (daemon : Daemon I C T Q)
    (horder : order.Perm daemon.instruments)
    (hnd : (GoMap.keys daemon.instruments).Nodup)
    (hempty : daemon.tickers = GoMap.make) :
    (initTickers NewTelemetryTicker order daemon).1.instruments = daemon.instruments ∧
      (GoMap.keys (initTickers NewTelemetryTicker order daemon).1.tickers).Perm
        (GoMap.keys daemon.instruments) ∧
      (GoMap.keys (initTickers NewTelemetryTicker order daemon).1.tickers).Nodup ∧
      (∀ k : String,
        k ∈ GoMap.keys (initTickers NewTelemetryTicker order daemon).1.tickers ↔
          k ∈ GoMap.keys daemon.instruments) ∧
      (∀ (k : String) (instrument : I), GoMap.get daemon.instruments k = some instrument →
        (∀ period : Duration, GoMap.get daemon.cfg.Instruments.Periods k = some period →
          GoMap.get (initTickers NewTelemetryTicker order daemon).1.tickers k =
            some (NewTelemetryTicker instrument daemon.telemetry period)) ∧
        (GoMap.get daemon.cfg.Instruments.Periods k = none →
          GoMap.get (initTickers NewTelemetryTicker order daemon).1.tickers k =
            some (NewTelemetryTicker instrument daemon.telemetry Second))) := by
  have hndo : (GoMap.keys order).Nodup := ((horder.map Prod.fst).nodup_iff).2 hnd
  have hget : ∀ k : String,
      GoMap.get (initTickers NewTelemetryTicker order daemon).1.tickers k =
        match GoMap.get daemon.instruments k with
        | some i => some (NewTelemetryTicker i daemon.telemetry (resolvedPeriod daemon.cfg k))
        | none => none := by
    intro k
    unfold initTickers
    rw [initTickers.fold_get NewTelemetryTicker order hndo, GoMap.get_perm order _ horder hnd]
    cases GoMap.get daemon.instruments k with
    | none => simp [hempty, GoMap.make, GoMap.get]
    | some i => rfl
  have hnodup : (GoMap.keys (initTickers NewTelemetryTicker order daemon).1.tickers).Nodup := by
    unfold initTickers
    apply initTickers.fold_nodup
    simp [hempty, GoMap.make, GoMap.keys]
  have hmem : ∀ k : String,
      k ∈ GoMap.keys (initTickers NewTelemetryTicker order daemon).1.tickers ↔
        k ∈ GoMap.keys daemon.instruments := by
    intro k
    rw [← GoMap.get_isSome_iff, ← GoMap.get_isSome_iff, hget]
    cases GoMap.get daemon.instruments k <;> simp
  refine ⟨(initTickers.fold_frame NewTelemetryTicker order (daemon, [])).2.2.1, ?_, hnodup,
    hmem, ?_⟩
  · exact (List.perm_ext_iff_of_nodup hnodup hnd).2 hmem
  · intro k instrument hk
    constructor
    · intro period hp
      rw [hget, hk]
      simp [resolvedPeriod, hp]
    · intro hp
      rw [hget, hk]
      simp [resolvedPeriod, hp, Second]

theorem initTickers_one_ticker_per_active_instrument_witness :
    ([("ram", ("Ram", [])), ("cpu", ("CpuUtil", []))] : List (String × SampleInstrument)).Perm
        (initInstruments sampleFactory (sampleDaemon .nil (.mk ["cpu", "ram"])
          [("cpu", 500000000), ("load", 0)])).1.instruments ∧
      (initTickers sampleNewTicker [("ram", ("Ram", [])), ("cpu", ("CpuUtil", []))]
        (initInstruments sampleFactory (sampleDaemon .nil (.mk ["cpu", "ram"])
          [("cpu", 500000000), ("load", 0)])).1).1.tickers =
        [("ram", (("Ram", []), "telemetry", 1000000000)),
          ("cpu", (("CpuUtil", []), "telemetry", 500000000))] ∧
      (GoMap.keys (initTickers sampleNewTicker [("ram", ("Ram", [])), ("cpu", ("CpuUtil", []))]
        (initInstruments sampleFactory (sampleDaemon .nil (.mk ["cpu", "ram"])
          [("cpu", 500000000), ("load", 0)])).1).1.tickers).Perm
        (GoMap.keys (initInstruments sampleFactory (sampleDaemon .nil (.mk ["cpu", "ram"])
          [("cpu", 500000000), ("load", 0)])).1.instruments) :=
  ⟨List.Perm.swap _ _ _, by decide,
    (initTickers_one_ticker_per_active_instrument sampleNewTicker
      [("ram", ("Ram", [])), ("cpu", ("CpuUtil", []))]
      (initInstruments sampleFactory (sampleDaemon .nil (.mk ["cpu", "ram"])
        [("cpu", 500000000), ("load", 0)])).1
      (List.Perm.swap _ _ _) (by decide) rfl).2.1⟩

/-- C9: during `initTickers` the log lines printed are, up to order, one
"no period assigned" warning for each active instrument key that the period
map lacks: the warning of such a key is printed exactly once, the warning of
a key that has a configured period or is not active is never printed, nothing
else is printed, and the number of warnings is the number of active keys
without a configured period. This holds for every order in which the
instrument map is ranged over. -/
theorem initTickers_warns_once_per_missing_period {I C T Q : Type}
    [DecidableEq C] [DecidableEq T]
    (NewTelemetryTicker : I → C → Duration → T) (order : List (String × I))
    (daemon : Daemon I C T Q)
    (horder : order.Perm daemon.instruments)
    (hnd : (GoMap.keys daemon.instruments).Nodup) :
    (initTickers NewTelemetryTicker order daemon).2.Perm
        (((GoMap.keys daemon.instruments).filter
          (fun k => (GoMap.get daemon.cfg.Instruments.Periods k).isNone)).map
            noPeriodWarning) ∧
      (∀ k : String, k ∈ GoMap.keys daemon.instruments →
        GoMap.get daemon.cfg.Instruments.Periods k = none →
        (initTickers NewTelemetryTicker order daemon).2.count (noPeriodWarning k) = 1) ∧
      (∀ k : String, k ∉ GoMap.keys daemon.instruments →
        (initTickers NewTelemetryTicker order daemon).2.count (noPeriodWarning k) = 0) ∧
      (∀ (k : String) (period : Duration),
        GoMap.get daemon.cfg.Instruments.Periods k = some period →
        (initTickers NewTelemetryTicker order daemon).2.count (noPeriodWarning k) = 0) ∧
      (∀ e : Effect C T, e ∈ (initTickers NewTelemetryTicker order daemon).2 →
        ∃ k : String, e = noPeriodWarning k) ∧
      (initTickers NewTelemetryTicker order daemon).2.length =
        ((GoMap.keys daemon.instruments).filter
          (fun k => (GoMap.get daemon.cfg.Instruments.Periods k).isNone)).length := by
  have hkeys : (GoMap.keys order).Perm (GoMap.keys daemon.instruments) := horder.map Prod.fst
  have hperm : (initTickers NewTelemetryTicker order daemon).2.Perm
      (((GoMap.keys daemon.instruments).filter
        (fun k => (GoMap.get daemon.cfg.Instruments.Periods k).isNone)).map
          noPeriodWarning) := by
    unfold initTickers
    rw [initTickers.fold_effects, List.nil_append]
    exact (hkeys.filter _).map _
  have hcount : ∀ k : String,
      (initTickers NewTelemetryTicker order daemon).2.count (noPeriodWarning k) =
        ((GoMap.keys daemon.instruments).filter
          (fun k => (GoMap.get daemon.cfg.Instruments.Periods k).isNone)).count k := by
    intro k
    rw [hperm.count_eq, List.count_map_of_injective _ _ noPeriodWarning_injective]
  refine ⟨hperm, ?_, ?_, ?_, ?_, ?_⟩
  · intro k hk hp
    rw [hcount]
    apply List.count_eq_one_of_mem (hnd.filter _)
    exact List.mem_filter.2 ⟨hk, by simp [hp]⟩
  · intro k hk
    rw [hcount]
    exact List.count_eq_zero_of_not_mem (fun hm => hk (List.mem_filter.1 hm).1)
  · intro k period hp
    rw [hcount]
    apply List.count_eq_zero_of_not_mem
    intro hm
    have := (List.mem_filter.1 hm).2
    simp [hp] at this
  · intro e he
    obtain ⟨k, _, hk⟩ := List.mem_map.1 (hperm.mem_iff.1 he)
    exact ⟨k, hk.symm⟩
  · rw [hperm.length_eq, List.length_map]

theorem initTickers_warns_once_per_missing_period_witness :
    ([("ram", ("Ram", [])), ("cpu", ("CpuUtil", []))] : List (String × SampleInstrument)).Perm
        (initInstruments sampleFactory (sampleDaemon .nil (.mk ["cpu", "ram"])
          [("cpu", 500000000), ("load", 0)])).1.instruments ∧
      (initTickers sampleNewTicker [("ram", ("Ram", [])), ("cpu", ("CpuUtil", []))]
        (initInstruments sampleFactory (sampleDaemon .nil (.mk ["cpu", "ram"])
          [("cpu", 500000000), ("load", 0)])).1).2 = [noPeriodWarning "ram"] ∧
      (initTickers sampleNewTicker [("ram", ("Ram", [])), ("cpu", ("CpuUtil", []))]
        (initInstruments sampleFactory (sampleDaemon .nil (.mk ["cpu", "ram"])
          [("cpu", 500000000), ("load", 0)])).1).2.count (noPeriodWarning "ram") = 1 :=
  ⟨List.Perm.swap _ _ _, by decide,
    (initTickers_warns_once_per_missing_period sampleNewTicker
      [("ram", ("Ram", [])), ("cpu", ("CpuUtil", []))]
      (initInstruments sampleFactory (sampleDaemon .nil (.mk ["cpu", "ram"])
        [("cpu", 500000000), ("load", 0)])).1
      (List.Perm.swap _ _ _) (by decide)).2.1 "ram" (by decide) (by decide)⟩

/-! ### Shutdown trigger -/

/-- C8, counterexample: on a daemon with two tickers, a call of `Daemon.Stop`
whose send on the stop signal is not taken stays blocked at the send: it makes
no call at all, so it calls `Stop` on neither ticker. Such a call exists: in
the transition system of `Run`, a `Stop` issued before `Run` has started the
command loop cannot move. -/
theorem Stop_blocked_at_send_stops_no_ticker :
    (Stop false sampleRunningDaemon.tickers sampleRunningDaemon).returned = false ∧
      (Stop false sampleRunningDaemon.tickers sampleRunningDaemon).effects = [] ∧
      GoMap.values sampleRunningDaemon.tickers =
        [(("CpuUtil", []), "telemetry", 500000000), (("Ram", []), "telemetry", 1000000000)] ∧
      ¬ ((Stop false sampleRunningDaemon.tickers
          sampleRunningDaemon).effects.filterMap Effect.stoppedTicker).Perm
        (GoMap.values sampleRunningDaemon.tickers) ∧
      Run.step (Run.init 2) .stop = none := by
  decide

/-- C8, amended: for every order in which the ticker map is ranged over, a
call of `Daemon.Stop` whose send on the stop signal completes returns, having
first sent that one stop signal and no other, and after it only logged and
called `Stop` on tickers, the tickers called being, entry for entry, those of
the ticker map, each entry once; a call whose send does not complete stays
blocked at the send and has made no call. In both cases the telemetry channel
is not closed and the daemon, so the ticker map and the instrument map, is
unchanged. -/
theorem Stop_stops_every_ticker_once_send_completes {I C T Q : Type}
    (sendCompletes : Bool) (order : List (String × T)) (daemon : Daemon I C T Q)
    (horder : order.Perm daemon.tickers) :
    (sendCompletes = true →
        (Stop sendCompletes order daemon).returned = true ∧
        (∃ rest : List (Effect C T),
          (Stop sendCompletes order daemon).effects = Effect.sendStop true :: rest ∧
            (∀ e ∈ rest, e.isSendStop = false ∧
              (e.isPrintln = true ∨ (e.stoppedTicker).isSome = true))) ∧
        ((Stop sendCompletes order daemon).effects.filterMap Effect.stoppedTicker).Perm
          (GoMap.values daemon.tickers)) ∧
      (sendCompletes = false →
        (Stop sendCompletes order daemon).returned = false ∧
        (Stop sendCompletes order daemon).effects = []) ∧
      (∀ e ∈ (Stop sendCompletes order daemon).effects, e.isTelemetryClose = false) ∧
      (Stop sendCompletes order daemon).daemon = daemon ∧
      (Stop sendCompletes order daemon).daemon.tickers = daemon.tickers ∧
      (Stop sendCompletes order daemon).daemon.instruments = daemon.instruments := by
  cases sendCompletes with
  | false =>
    refine ⟨fun h => Bool.noConfusion h, fun _ => ⟨rfl, rfl⟩, ?_, rfl, rfl, rfl⟩
    intro e he
    exact absurd he (List.not_mem_nil e)
  | true =>
    have heff : (Stop true order daemon).effects =
        Effect.sendStop true :: order.foldl Stop.body ([] : List (Effect C T)) := by
      show order.foldl Stop.body [Effect.sendStop true] = _
      rw [Stop.fold_eq]
      rfl
    refine ⟨fun _ => ⟨rfl, ⟨_, heff, fun e he => ⟨(Stop.fold_kinds order e he).1,
      (Stop.fold_kinds order e he).2.2⟩⟩, ?_⟩, fun h => Bool.noConfusion h, ?_, rfl, rfl, rfl⟩
    · rw [heff, List.filterMap_cons]
      simp only [Effect.stoppedTicker]
      rw [Stop.fold_stopped]
      exact horder.map Prod.snd
    · intro e he
      rw [heff, List.mem_cons] at he
      rcases he with rfl | he
      · rfl
      · exact (Stop.fold_kinds order e he).2.1

theorem Stop_stops_every_ticker_once_send_completes_witness :
    ([("ram", (("Ram", []), "telemetry", 1000000000)),
        ("cpu", (("CpuUtil", []), "telemetry", 500000000))] : List (String × SampleTicker)).Perm
        sampleRunningDaemon.tickers ∧
      (Stop true [("ram", (("Ram", []), "telemetry", 1000000000)),
        ("cpu", (("CpuUtil", []), "telemetry", 500000000))] sampleRunningDaemon).effects =
        [Effect.sendStop true,
          Effect.println [.str "stopping ticker ram"],
          Effect.tickerStop (("Ram", []), "telemetry", 1000000000),
          Effect.println [.str "stopping ticker cpu"],
          Effect.tickerStop (("CpuUtil", []), "telemetry", 500000000)] ∧
      ((Stop true [("ram", (("Ram", []), "telemetry", 1000000000)),
        ("cpu", (("CpuUtil", []), "telemetry", 500000000))]
          sampleRunningDaemon).effects.filterMap Effect.stoppedTicker).Perm
        (GoMap.values sampleRunningDaemon.tickers) :=
  ⟨List.Perm.swap _ _ _, by decide,
    ((Stop_stops_every_ticker_once_send_completes true
      [("ram", (("Ram", []), "telemetry", 1000000000)),
        ("cpu", (("CpuUtil", []), "telemetry", 500000000))] sampleRunningDaemon
      (List.Perm.swap _ _ _)).1 rfl).2.2⟩

/-! ### `Run` -/

theorem Run.orderly_run :
    (Run.exec (Run.init 1) Run.orderlySchedule).map
        (fun s => (s.run, s.tickers.map (fun t => t.pc), s.trace)) =
      some (.returned, [.exited],
        [.push 0, .push 0, .println "stopping ticker", .tickerStop 0,
          .println "closing telemetry channel", .close]) := by
  decide

/-- C1, evaluated on the code: with one ticker, there is a schedule of `Run`
in which the ticker pushes a Sample after `Run` has called `Close` on the
telemetry channel; when `Close` is called the goroutine of the ticker has not
yet run `wg.Add(1)`, so its `Run` has neither started nor returned. Hence it
is not the case that every schedule yields a trace without a push after
`Close`. -/
theorem Run_close_precedes_ticker_push :
    (Run.exec (Run.init 1) Run.pushSchedule).map (fun s => s.trace) =
        some [.println "closing telemetry channel", .close, .push 0] ∧
      (Run.exec (Run.init 1) Run.closeSchedule).map
        (fun s => (s.trace, s.tickers.map (fun t => t.pc))) =
        some ([.println "closing telemetry channel", .close], [.atAdd]) ∧
      ¬ (∀ (n : Nat) (schedule : List Goroutine) (s : RunState),
        Run.exec (Run.init n) schedule = some s → pushAfterClose s.trace = false) := by
  refine ⟨by decide, by decide, ?_⟩
  intro h
  have h2 : (Run.exec (Run.init 1) Run.pushSchedule).map
      (fun s => pushAfterClose s.trace) = some true := by decide
  cases hs : Run.exec (Run.init 1) Run.pushSchedule with
  | none => rw [hs] at h2; exact Option.noConfusion h2
  | some s =>
    rw [hs] at h2
    have h3 : pushAfterClose s.trace = true := Option.some.inj h2
    rw [h 1 Run.pushSchedule s hs] at h3
    exact Bool.noConfusion h3

/-- C2, evaluated on the code: with one ticker, there is a schedule in which
the wait on the wait group returned by `startTickers` is over (its counter
reads zero) while the goroutine of the started ticker has not yet run
`wg.Add(1)`, and a continuation of it in which `Run` has returned to its
caller while the ticker is inside `t.Run()`. Hence it is not the case that,
whenever `Run` has returned, every started ticker has returned from its
`Run`. -/
theorem Run_returns_while_ticker_running :
    (Run.exec (Run.init 1) Run.earlyWaitSchedule).map
        (fun s => (s.starter, s.tickersWg, s.tickers.map (fun t => t.pc))) =
      some (.atDone, 0, [.atAdd]) ∧
      (Run.exec (Run.init 1) Run.returnSchedule).map
        (fun s => (s.run, s.command, s.starter, s.tickers.map (fun t => t.pc))) =
      some (.returned, .exited, .exited, [.running]) ∧
      ¬ (∀ (n : Nat) (schedule : List Goroutine) (s : RunState),
        Run.exec (Run.init n) schedule = some s → s.run = .returned →
          ∀ t ∈ s.tickers, t.pc ≠ .notStarted → t.pc = .atDone ∨ t.pc = .exited) := by
  refine ⟨by decide, by decide, ?_⟩
  intro h
  have h2 : (Run.exec (Run.init 1) Run.returnSchedule).map
      (fun s => (s.run, s.tickers.map (fun t => t.pc))) =
      some (.returned, [.running]) := by decide
  cases hs : Run.exec (Run.init 1) Run.returnSchedule with
  | none => rw [hs] at h2; exact Option.noConfusion h2
  | some s =>
    rw [hs] at h2
    have h3 : (s.run, s.tickers.map (fun t => t.pc)) = (RunPc.returned, [TickerPc.running]) :=
      Option.some.inj h2
    have hrun : s.run = .returned := congrArg Prod.fst h3
    have hpcs : s.tickers.map (fun t => t.pc) = [TickerPc.running] := congrArg Prod.snd h3
    have hall := h 1 Run.returnSchedule s hs hrun
    have hmem : TickerPc.running ∈ s.tickers.map (fun t => t.pc) := by
      rw [hpcs]; exact List.mem_singleton.2 rfl
    obtain ⟨t, ht, hpc⟩ := List.mem_map.1 hmem
    have := hall t ht (by rw [hpc]; decide)
    rw [hpc] at this
    rcases this with e | e <;> exact TickerPc.noConfusion e

end Telemd
